import Mathlib

/-!
Verification development for the `ollama-cli` terminal client.

The Rust sources (`src/main.rs`, `src/ollama.rs`, `src/search.rs`) are
shallowly embedded below: pure fragments become Lean functions, the key
handlers of the three views become functions from `AppState` and a key code
to a new `AppState` together with the list of background jobs they dispatch,
and each background job's state write-back becomes an explicit completion
function on `AppState`.  Machine strings are modelled as Lean `String`
(operating on `List Char`); byte indices of Rust `str::find` coincide with
character indices on the ASCII inputs considered here.
-/

/-! ## Data model (`src/ollama.rs`, `src/search.rs`) -/

/-- `ollama::ChatMessage`: role (`"user"` or `"assistant"`) and text content. -/
structure ChatMessage where
  role : String
  content : String
deriving DecidableEq

/-- `ollama::Model`: one installed model as reported by the local server. -/
structure Model where
  name : String
  model : String
  size : Int
  digest : String
  modified_at : Option String
deriving DecidableEq

/-- `ollama::ChatResponse`: one frame of the chat protocol. -/
structure ChatResponse where
  model : String
  message : ChatMessage
  done : Bool
deriving DecidableEq

/-- `search::OnlineModel`: one entry scraped from the remote catalog. -/
structure OnlineModel where
  name : String
  description : Option String
  url : String
deriving DecidableEq

/-! ## String helpers

Rust's `str` operations used by the sources, modelled over `List Char`. -/

/-- ASCII whitespace as recognised by the model of `str::trim`. -/
def isWsChar (c : Char) : Bool :=
  c = ' ' || c = '\t' || c = '\n' || c = '\r'

/-- `line.trim().is_empty()` holds exactly when every character is whitespace. -/
def isBlank (s : String) : Bool :=
  s.toList.all isWsChar

/-- Index of the first occurrence of `pat` in `cs` (Rust `str::find`). -/
def findSub : List Char → List Char → Option Nat
  | [], pat => if pat = [] then some 0 else none
  | c :: rest, pat =>
    if pat.isPrefixOf (c :: rest) then some 0
    else (findSub rest pat).map (· + 1)

/-- Rust `str::contains` (substring containment, `find(..).is_some()`). -/
def containsSub (s pat : String) : Bool :=
  (findSub s.toList pat.toList).isSome

/-- One step of `str::trim_start_matches`: repeatedly strip the prefix `pat`,
with fuel bounding the number of removals. -/
def stripAllPre (pat : List Char) : Nat → List Char → List Char
  | 0, cs => cs
  | fuel + 1, cs =>
    if pat.isPrefixOf cs && !pat.isEmpty then
      stripAllPre pat fuel (cs.drop pat.length)
    else cs

/-- Rust `href.trim_start_matches("/library/")`. -/
def trimStartMatchesLib (cs : List Char) : List Char :=
  stripAllPre "/library/".toList cs.length cs

/-- ASCII model of Rust `str::to_lowercase` (the catalog names are ASCII). -/
def lowerStr (s : String) : String :=
  String.mk (s.toList.map Char.toLower)

/-- Rust `str::lines` on `body`: split at each newline, drop one trailing
carriage return per line, and drop a final empty segment. -/
def rustLines (s : String) : List String :=
  let parts := s.splitOn "\n"
  let parts :=
    match parts.getLast? with
    | some "" => parts.dropLast
    | _ => parts
  parts.map fun l =>
    match l.toList.getLast? with
    | some '\r' => String.mk l.toList.dropLast
    | _ => l

/-! ## `src/search.rs`: catalog scraping -/

/-- `search::extract_model_name`: pull the `href` value out of a line and
accept it only when it is `/library/<name>` with no further path segment or
query string.  The second argument is unused, as in the source. -/
def extract_model_name (line : String) (x_base_url : String) : Option String :=
  let _ := x_base_url
  let cs := line.toList
  match findSub cs "href=\"".toList with
  | none => none
  | some i =>
    let href_start := i + 6
    let rest := cs.drop href_start
    match findSub rest ['\"'] with
    | none => none
    | some j =>
      let href := rest.take j
      if "/library/".toList.isPrefixOf href then
        let name := trimStartMatchesLib href
        if name.isEmpty then none
        else if name.contains '/' || name.contains '?' then none
        else some (String.mk name)
      else none

/-- The remote catalog base pattern, as built in both scraping functions. -/
def libraryPattern : String := "https://ollama.com" ++ "/library/"

/-- The candidate list built by the scan loop of `search::search_online`
before deduplication: per line, require `"/library/"` and `"<a "` to occur,
extract the name, and keep it when the query is empty or is a lowercase
substring of the name. -/
def searchCandidates (query body : String) : List OnlineModel :=
  (rustLines body).filterMap fun line =>
    if containsSub line "/library/" && containsSub line "<a " then
      match extract_model_name line libraryPattern with
      | some name =>
        if query = "" || containsSub (lowerStr name) (lowerStr query) then
          some ⟨name, none, "https://ollama.com" ++ "/library/" ++ name⟩
        else none
      | none => none
    else none

/-- The candidate list built by the scan loop of `search::get_popular_models`
(no query filter). -/
def popularCandidates (body : String) : List OnlineModel :=
  (rustLines body).filterMap fun line =>
    if containsSub line "/library/" && containsSub line "<a " then
      match extract_model_name line libraryPattern with
      | some name => some ⟨name, none, "https://ollama.com" ++ "/library/" ++ name⟩
      | none => none
    else none

/-- `models.retain(|m| unique.insert(m.name.clone()))`: keep an entry exactly
when its name has not been seen before, scanning left to right. -/
def dedupeByName : List OnlineModel → List String → List OnlineModel
  | [], _ => []
  | m :: ms, seen =>
    if m.name ∈ seen then dedupeByName ms seen
    else m :: dedupeByName ms (m.name :: seen)

/-- `search::search_online` after the page fetch: scan, dedupe, truncate to 50. -/
def search_online_process (query body : String) : List OnlineModel :=
  (dedupeByName (searchCandidates query body) []).take 50

/-- `search::get_popular_models` after the page fetch: scan, dedupe, truncate to 30. -/
def get_popular_process (body : String) : List OnlineModel :=
  (dedupeByName (popularCandidates body) []).take 30

/-! ## JSON values and parsing

Model of `serde_json::from_str::<ChatResponse>` as used by
`ollama::chat_streaming`: a small JSON grammar (objects, arrays, strings,
booleans, `null`, numbers kept as raw lexemes — no claim depends on numeric
values) followed by the derived-deserializer field checks, which require the
fields `model` (string), `message` (object with string `role` and `content`)
and `done` (boolean), tolerate unknown fields, and reject anything else. -/

inductive Json where
  | null : Json
  | bool (b : Bool) : Json
  | num (raw : String) : Json
  | str (s : String) : Json
  | arr (elems : List Json) : Json
  | obj (fields : List (String × Json)) : Json

/-- Left brace character (code 123). -/
def lbrace : Char := Char.ofNat 123

/-- Right brace character (code 125). -/
def rbrace : Char := Char.ofNat 125

/-- Drop leading JSON whitespace. -/
def skipWs (cs : List Char) : List Char :=
  cs.dropWhile isWsChar

/-- Characters that may occur in a JSON number lexeme. -/
def isNumChar (c : Char) : Bool :=
  c.isDigit || c = '-' || c = '+' || c = '.' || c = 'e' || c = 'E'

/-- Scan a JSON string literal body (after the opening quote), handling the
simple escapes; a `\u` escape or an unterminated literal fails. -/
def strLit : Nat → List Char → List Char → Option (String × List Char)
  | 0, _, _ => none
  | _ + 1, acc, [] =>
    let _ := acc
    none
  | fuel + 1, acc, c :: rest =>
    if c = '\"' then some (String.mk acc.reverse, rest)
    else if c = '\\' then
      match rest with
      | [] => none
      | e :: rest' =>
        if e = '\"' then strLit fuel ('\"' :: acc) rest'
        else if e = '\\' then strLit fuel ('\\' :: acc) rest'
        else if e = '/' then strLit fuel ('/' :: acc) rest'
        else if e = 'n' then strLit fuel ('\n' :: acc) rest'
        else if e = 't' then strLit fuel ('\t' :: acc) rest'
        else if e = 'r' then strLit fuel ('\r' :: acc) rest'
        else if e = 'b' then strLit fuel (Char.ofNat 8 :: acc) rest'
        else if e = 'f' then strLit fuel (Char.ofNat 12 :: acc) rest'
        else none
    else strLit fuel (c :: acc) rest

/-- The three mutually recursive parsing functions (value, object members,
array elements), bundled as a tuple and indexed by fuel so that recursion is
structural on `Nat` and every application reduces in the kernel.  Each
returns the parsed piece together with the unconsumed input. -/
def jsonRun : Nat →
    (List Char → Option (Json × List Char)) ×
    (List Char → Option (List (String × Json) × List Char)) ×
    (List Char → Option (List Json × List Char))
  | 0 => (fun _ => none, fun _ => none, fun _ => none)
  | fuel + 1 =>
    let P := jsonRun fuel
    let pv := P.1
    let pm := P.2.1
    let pe := P.2.2
    ( fun cs =>
        match skipWs cs with
        | [] => none
        | c :: rest =>
          if c = '\"' then
            match strLit (rest.length + 1) [] rest with
            | some (s, r) => some (Json.str s, r)
            | none => none
          else if c = lbrace then
            match skipWs rest with
            | [] => none
            | d :: r2 =>
              if d = rbrace then some (Json.obj [], r2)
              else
                match pm (skipWs rest) with
                | some (ms, r3) => some (Json.obj ms, r3)
                | none => none
          else if c = '[' then
            match skipWs rest with
            | [] => none
            | d :: r2 =>
              if d = ']' then some (Json.arr [], r2)
              else
                match pe (skipWs rest) with
                | some (vs, r3) => some (Json.arr vs, r3)
                | none => none
          else if "true".toList.isPrefixOf (c :: rest) then
            some (Json.bool true, (c :: rest).drop 4)
          else if "false".toList.isPrefixOf (c :: rest) then
            some (Json.bool false, (c :: rest).drop 5)
          else if "null".toList.isPrefixOf (c :: rest) then
            some (Json.null, (c :: rest).drop 4)
          else if c.isDigit || c = '-' then
            let lex := (c :: rest).takeWhile isNumChar
            some (Json.num (String.mk lex), (c :: rest).drop lex.length)
          else none,
      fun cs =>
        match skipWs cs with
        | [] => none
        | c :: rest =>
          if c = '\"' then
            match strLit (rest.length + 1) [] rest with
            | none => none
            | some (key, r1) =>
              match skipWs r1 with
              | ':' :: r3 =>
                match pv r3 with
                | none => none
                | some (v, r4) =>
                  match skipWs r4 with
                  | [] => none
                  | ch :: r6 =>
                    if ch = ',' then
                      match pm r6 with
                      | some (ms, r7) => some ((key, v) :: ms, r7)
                      | none => none
                    else if ch = rbrace then some ([(key, v)], r6)
                    else none
              | _ => none
          else none,
      fun cs =>
        match pv cs with
        | none => none
        | some (v, r1) =>
          match skipWs r1 with
          | [] => none
          | ch :: r2 =>
            if ch = ',' then
              match pe r2 with
              | some (vs, r3) => some (v :: vs, r3)
              | none => none
            else if ch = ']' then some ([v], r2)
            else none )

/-- Parse a complete JSON document: one value, then only trailing whitespace. -/
def parseJson (s : String) : Option Json :=
  let cs := s.toList
  match (jsonRun (cs.length + 1)).1 cs with
  | some (j, rest) => if skipWs rest = [] then some j else none
  | none => none

/-- First binding of `key` in an object's field list. -/
def getField (fields : List (String × Json)) (key : String) : Option Json :=
  match fields.find? (fun p => p.1 == key) with
  | some p => some p.2
  | none => none

/-- The derived `Deserialize` check for `ChatResponse`: all fields present
with the right shapes, unknown fields ignored. -/
def chatResponseOfJson : Json → Option ChatResponse
  | Json.obj fields =>
    match getField fields "model", getField fields "message", getField fields "done" with
    | some (Json.str model), some (Json.obj mf), some (Json.bool done) =>
      match getField mf "role", getField mf "content" with
      | some (Json.str role), some (Json.str content) =>
        some ⟨model, ⟨role, content⟩, done⟩
      | _, _ => none
    | _, _, _ => none
  | _ => none

/-- `serde_json::from_str::<ChatResponse>(&line)`. -/
def parseChatResponse (line : String) : Option ChatResponse :=
  (parseJson line).bind chatResponseOfJson

/-! ## `ollama::chat_streaming`: the streaming decode loop

The loop body of `chat_streaming` over the response lines: skip blank lines,
skip lines that fail to decode, and on each decoded frame append its fragment
to the accumulator, invoke the callback with the full accumulated text, and
stop as soon as a frame reports `done`.  The result records the sequence of
callback invocations, the final accumulated content, and the lines left
unconsumed. -/
def chatStream : List String → String → List String × String × List String
  | [], acc => ([], acc, [])
  | l :: rest, acc =>
    if isBlank l then chatStream rest acc
    else
      match parseChatResponse l with
      | some resp =>
        let acc' := acc ++ resp.message.content
        if resp.done then ([acc'], acc', rest)
        else
          let r := chatStream rest acc'
          (acc' :: r.1, r.2.1, r.2.2)
      | none => chatStream rest acc

/-- `chat_streaming` starting from the empty accumulator. -/
def chatStreamRun (lines : List String) : List String × String × List String :=
  chatStream lines ""

/-! ## `src/main.rs`: application state, key handlers, job completions -/

/-- The active view. -/
inductive Tab where
  | Chat : Tab
  | Models : Tab
  | Search : Tab
deriving DecidableEq

/-- The key codes the handlers distinguish (`crossterm::event::KeyCode`).
`End` is a Lean keyword, hence `endKey`. -/
inductive KeyCode where
  | char (c : Char) : KeyCode
  | enter : KeyCode
  | backspace : KeyCode
  | esc : KeyCode
  | down : KeyCode
  | up : KeyCode
  | endKey : KeyCode
deriving DecidableEq

/-- A background job spawned by a key handler (`std::thread::spawn` bodies),
identified by its kind and captured arguments. -/
inductive Job where
  | chat (model : String) (messages : List ChatMessage) : Job
  | delete (name : String) : Job
  | refresh : Job
  | search (query : String) : Job
deriving DecidableEq

/-- `AppState`: the shared aggregate behind the mutex.  The three ratatui
`ListState` values are modelled by their selected index. -/
structure AppState where
  current_tab : Tab
  selected_model : Option String
  models : List Model
  messages : List ChatMessage
  input_text : String
  is_loading : Bool
  search_query : String
  search_results : List OnlineModel
  is_searching : Bool
  model_list_state : Option Nat
  search_list_state : Option Nat
  chat_scroll_state : Option Nat
  input_mode : Bool
  status_message : Option String
deriving DecidableEq

/-- `AppState::new()`: defaults, with every list cursor selected at 0. -/
def AppState.new : AppState where
  current_tab := Tab.Chat
  selected_model := none
  models := []
  messages := []
  input_text := ""
  is_loading := false
  search_query := ""
  search_results := []
  is_searching := false
  model_list_state := some 0
  search_list_state := some 0
  chat_scroll_state := some 0
  input_mode := false
  status_message := none

/-- `handle_chat_input`: the conversation view's key handler.  Returns the
new state and the background jobs dispatched (the submit path spawns the
chat thread). -/
def handle_chat_input (s : AppState) (key : KeyCode) : AppState × List Job :=
  if s.input_mode then
    match key with
    | KeyCode.char c => ({ s with input_text := s.input_text.push c }, [])
    | KeyCode.backspace => ({ s with input_text := s.input_text.dropRight 1 }, [])
    | KeyCode.enter =>
      if s.input_text = "" then (s, [])
      else
        match s.selected_model with
        | none => (s, [])
        | some model =>
          let user_input := s.input_text
          let messages := s.messages ++ [⟨"user", user_input⟩]
          ({ s with
              input_text := ""
              messages := messages
              is_loading := true
              input_mode := false },
            [Job.chat model messages])
    | KeyCode.esc => ({ s with input_mode := false }, [])
    | _ => (s, [])
  else
    let enterInsert : AppState × List Job :=
      if s.selected_model.isSome then ({ s with input_mode := true }, []) else (s, [])
    let navDown : AppState × List Job :=
      match s.chat_scroll_state with
      | some selected =>
        if s.messages.isEmpty then (s, [])
        else ({ s with chat_scroll_state := some (min (selected + 1) (s.messages.length - 1)) }, [])
      | none => (s, [])
    let navUp : AppState × List Job :=
      match s.chat_scroll_state with
      | some selected => ({ s with chat_scroll_state := some (selected - 1) }, [])
      | none => (s, [])
    let navEnd : AppState × List Job :=
      if !s.messages.isEmpty then
        ({ s with chat_scroll_state := some (s.messages.length - 1) }, [])
      else (s, [])
    let navHome : AppState × List Job :=
      ({ s with chat_scroll_state := some 0 }, [])
    let delMsg : AppState × List Job :=
      match s.chat_scroll_state with
      | some selected =>
        if selected < s.messages.length then
          ({ s with messages := s.messages.eraseIdx selected }, [])
        else (s, [])
      | none => (s, [])
    match key with
    | KeyCode.enter => enterInsert
    | KeyCode.char c =>
      if c = 'i' ∨ c = 'a' then enterInsert
      else if c = 'j' then navDown
      else if c = 'k' then navUp
      else if c = 'G' then navEnd
      else if c = 'g' then navHome
      else if c = 'd' then delMsg
      else (s, [])
    | KeyCode.down => navDown
    | KeyCode.up => navUp
    | KeyCode.endKey => navEnd
    | _ => (s, [])

/-- `handle_models_input`: the installed-models view's key handler. -/
def handle_models_input (s : AppState) (key : KeyCode) : AppState × List Job :=
  let navDown : AppState × List Job :=
    match s.model_list_state with
    | some selected =>
      if s.models.isEmpty then (s, [])
      else ({ s with model_list_state := some (min (selected + 1) (s.models.length - 1)) }, [])
    | none => (s, [])
  let navUp : AppState × List Job :=
    match s.model_list_state with
    | some selected => ({ s with model_list_state := some (selected - 1) }, [])
    | none => (s, [])
  let navEnd : AppState × List Job :=
    if !s.models.isEmpty then
      ({ s with model_list_state := some (s.models.length - 1) }, [])
    else (s, [])
  let navHome : AppState × List Job :=
    ({ s with model_list_state := some 0 }, [])
  let selectModel : AppState × List Job :=
    match s.model_list_state with
    | some selected =>
      match s.models.get? selected with
      | some model =>
        ({ s with selected_model := some model.name, current_tab := Tab.Chat }, [])
      | none => (s, [])
    | none => (s, [])
  let deleteModel : AppState × List Job :=
    match s.model_list_state with
    | some selected =>
      match s.models.get? selected with
      | some model =>
        ({ s with status_message := some ("Deleting " ++ model.name ++ "...") },
          [Job.delete model.name])
      | none => (s, [])
    | none => (s, [])
  match key with
  | KeyCode.enter => selectModel
  | KeyCode.char c =>
    if c = 'j' then navDown
    else if c = 'k' then navUp
    else if c = 'G' then navEnd
    else if c = 'g' then navHome
    else if c = 'd' then deleteModel
    else if c = 'r' then
      ({ s with status_message := some "Refreshing models..." }, [Job.refresh])
    else (s, [])
  | KeyCode.down => navDown
  | KeyCode.up => navUp
  | KeyCode.endKey => navEnd
  | _ => (s, [])

/-- `handle_search_input`: the search view's key handler.  Note the match
order of the source: `j`, `k`, `G`, `g` navigate and only the remaining
printable characters extend the query. -/
def handle_search_input (s : AppState) (key : KeyCode) : AppState × List Job :=
  let navDown : AppState × List Job :=
    match s.search_list_state with
    | some selected =>
      if s.search_results.isEmpty then (s, [])
      else ({ s with search_list_state := some (min (selected + 1) (s.search_results.length - 1)) }, [])
    | none => (s, [])
  let navUp : AppState × List Job :=
    match s.search_list_state with
    | some selected => ({ s with search_list_state := some (selected - 1) }, [])
    | none => (s, [])
  let navEnd : AppState × List Job :=
    if !s.search_results.isEmpty then
      ({ s with search_list_state := some (s.search_results.length - 1) }, [])
    else (s, [])
  let navHome : AppState × List Job :=
    ({ s with search_list_state := some 0 }, [])
  match key with
  | KeyCode.char c =>
    if c = 'j' then navDown
    else if c = 'k' then navUp
    else if c = 'G' then navEnd
    else if c = 'g' then navHome
    else ({ s with search_query := s.search_query.push c }, [])
  | KeyCode.down => navDown
  | KeyCode.up => navUp
  | KeyCode.endKey => navEnd
  | KeyCode.backspace => ({ s with search_query := s.search_query.dropRight 1 }, [])
  | KeyCode.enter =>
    if !s.is_searching then
      ({ s with is_searching := true }, [Job.search s.search_query])
    else (s, [])
  | _ => (s, [])

/-! ### Background-job completions

Each `std::thread::spawn` body, once its network call has returned, takes
the lock and writes its outcome.  The outcome of the external call is the
explicit `Except` argument. -/

/-- Completion of the chat job spawned by the submit path: on success push
the response message; on failure set the status message; in both cases clear
`is_loading` and return to insert mode. -/
def chatJobComplete (r : Except String ChatResponse) (s : AppState) : AppState :=
  match r with
  | Except.ok response =>
    { s with
        messages := s.messages ++ [response.message]
        is_loading := false
        input_mode := true }
  | Except.error e =>
    { s with
        status_message := some ("Error: " ++ e)
        is_loading := false
        input_mode := true }

/-- Completion of the delete job: on success drop every model with the
deleted name, reset the selection if it named that model, and report; on
failure only report. -/
def deleteJobComplete (model_name : String) (r : Except String Unit) (s : AppState) : AppState :=
  match r with
  | Except.ok _ =>
    { s with
        models := s.models.filter (fun m => m.name != model_name)
        selected_model :=
          if s.selected_model = some model_name then none else s.selected_model
        status_message := some ("Deleted " ++ model_name) }
  | Except.error e =>
    { s with status_message := some ("Delete failed: " ++ e) }

/-- `refresh_models`: on success replace the model list wholesale; on
failure set the connectivity status message. -/
def refreshModelsComplete (r : Except String (List Model)) (s : AppState) : AppState :=
  match r with
  | Except.ok ms => { s with models := ms }
  | Except.error e =>
    { s with
        status_message :=
          some ("Failed to connect: " ++ e ++ ". Make sure Ollama is running.") }

/-- Completion of the search job: the fetch result is collapsed by
`unwrap_or_default()` (a failure yields the empty list), the results are
replaced wholesale, and the searching flag is cleared.  No status message is
written on either path. -/
def searchJobComplete (r : Except String (List OnlineModel)) (s : AppState) : AppState :=
  let results :=
    match r with
    | Except.ok v => v
    | Except.error _ => []
  { s with search_results := results, is_searching := false }

/-! ### Auxiliary definitions for the statements below -/

/-- A selection cursor is in bounds for a list of the given length: either
the list is empty (the cursor is then ignored by rendering) or the selected
index is strictly below the length. -/
def cursorInBounds (c : Option Nat) (len : Nat) : Prop :=
  match c with
  | some i => len = 0 ∨ i < len
  | none => True

instance (c : Option Nat) (len : Nat) : Decidable (cursorInBounds c len) := by
  unfold cursorInBounds
  cases c <;> infer_instance

/-- The navigation keys of the three list views. -/
def navKeysList : List KeyCode :=
  [KeyCode.down, KeyCode.char 'j', KeyCode.up, KeyCode.char 'k',
   KeyCode.endKey, KeyCode.char 'G', KeyCode.char 'g']

/-- The first streaming frame exactly as written in the specification. -/
def specFrame1 : String := "\x7b\"message\":\x7b\"content\":\"He\"\x7d,\"done\":false\x7d"

/-- The second streaming frame exactly as written in the specification. -/
def specFrame2 : String := "\x7b\"message\":\x7b\"content\":\"llo\"\x7d,\"done\":true\x7d"

/-- The first streaming frame completed with the fields the frame record
requires (`model`, `message.role`). -/
def fullFrame1 : String :=
  "\x7b\"model\":\"m\",\"message\":\x7b\"role\":\"assistant\",\"content\":\"He\"\x7d,\"done\":false\x7d"

/-- The second streaming frame completed with the required fields and
reporting completion. -/
def fullFrame2 : String :=
  "\x7b\"model\":\"m\",\"message\":\x7b\"role\":\"assistant\",\"content\":\"llo\"\x7d,\"done\":true\x7d"

/-! ## Claims -/

/-- C9: a line containing `href="/library/llama3"` yields the entry
identifier `"llama3"`, while hrefs with a further path segment
(`/library/llama3/tags`) or a query string (`/library/llama3?x=1`) yield no
entry. -/
theorem extract_model_name_spec :
    extract_model_name "<a href=\"/library/llama3\">" libraryPattern = some "llama3" ∧
    extract_model_name "<a href=\"/library/llama3/tags\">" libraryPattern = none ∧
    extract_model_name "<a href=\"/library/llama3?x=1\">" libraryPattern = none := by
  decide

/-- C6 counterexample: on the two frames exactly as the claim writes them,
the decoder invokes the callback zero times — not twice with `"He"` and
`"Hello"` — because the frames lack the `model` and `message.role` fields
the frame record requires, so both lines are skipped as unparsable. -/
theorem literal_frames_not_decoded_cx :
    (chatStreamRun [specFrame1, specFrame2]).1 = [] ∧
    parseChatResponse specFrame1 = none ∧
    parseChatResponse specFrame2 = none := by
  decide

/-- C6 amended: on frames carrying all the fields of the frame record, with
contents `"He"` (`done = false`) then `"llo"` (`done = true`), the callback
is invoked exactly twice with the accumulated values `"He"` then `"Hello"`,
and no input after the completing frame is consumed (a third line is left
unconsumed). -/
theorem streaming_decode_accumulates :
    chatStreamRun [fullFrame1, fullFrame2, fullFrame1] =
      (["He", "Hello"], "Hello", [fullFrame1]) := by
  decide

/-- C2: the chat job clears `is_loading` and the search job clears
`is_searching` on completion, whatever the outcome of the external call. -/
theorem jobs_clear_inflight_flags (r1 : Except String ChatResponse)
    (r2 : Except String (List OnlineModel)) (s1 s2 : AppState) :
    (chatJobComplete r1 s1).is_loading = false ∧
    (searchJobComplete r2 s2).is_searching = false := by
  cases r1 <;> cases r2 <;> simp [chatJobComplete, searchJobComplete]

/-- C4 counterexample: when the search fetch fails, no status message is
written at all — the claim's requirement of a message naming the operation
and the error text fails for the search job (its flag is still cleared). -/
theorem search_failure_no_status_cx :
    (searchJobComplete (Except.error "connection refused") AppState.new).status_message = none ∧
    (searchJobComplete (Except.error "connection refused") AppState.new).is_searching = false := by
  decide

/-- C4 amended: a failed delete writes `Delete failed: <e>`, a failed chat
writes `Error: <e>`, a failed model listing writes
`Failed to connect: <e>. Make sure Ollama is running.`, but a failed search
writes no status message (its result is collapsed to the empty list). -/
theorem failure_status_messages (e n : String) (s : AppState) :
    (deleteJobComplete n (Except.error e) s).status_message =
      some ("Delete failed: " ++ e) ∧
    (chatJobComplete (Except.error e) s).status_message = some ("Error: " ++ e) ∧
    (refreshModelsComplete (Except.error e) s).status_message =
      some ("Failed to connect: " ++ e ++ ". Make sure Ollama is running.") ∧
    (searchJobComplete (Except.error e) s).status_message = s.status_message := by
  simp [deleteJobComplete, chatJobComplete, refreshModelsComplete, searchJobComplete]

/-- C10: a successful delete of model `n` keeps exactly the models not named
`n` and resets the selection when it named `n`; a failed delete writes only
the status message, leaving every other field (models, selection) unchanged. -/
theorem delete_completion_spec (n e : String) (s : AppState) :
    (deleteJobComplete n (Except.ok ()) s).models =
      s.models.filter (fun m => m.name != n) ∧
    (deleteJobComplete n (Except.ok ()) s).selected_model =
      (if s.selected_model = some n then none else s.selected_model) ∧
    (deleteJobComplete n (Except.error e) s).models = s.models ∧
    (deleteJobComplete n (Except.error e) s).selected_model = s.selected_model ∧
    deleteJobComplete n (Except.error e) s =
      { s with status_message := some ("Delete failed: " ++ e) } := by
  simp [deleteJobComplete]

/-- The deduplicated list is a sublist of the input (order preserved, only
repeats removed). -/
theorem dedupeByName_sublist (l : List OnlineModel) (seen : List String) :
    List.Sublist (dedupeByName l seen) l := by
  induction l generalizing seen with
  | nil => simp [dedupeByName]
  | cons m ms ih =>
    unfold dedupeByName
    by_cases h : m.name ∈ seen
    · simp only [h, if_pos]
      exact List.Sublist.cons m (ih seen)
    · simp only [h, if_neg, not_false_iff]
      exact List.Sublist.cons₂ m (ih (m.name :: seen))

/-- The names in the deduplicated list are pairwise distinct and avoid the
already-seen set. -/
theorem dedupeByName_names_nodup (l : List OnlineModel) (seen : List String) :
    ((dedupeByName l seen).map (fun m => m.name)).Nodup ∧
    ∀ m, m ∈ dedupeByName l seen → m.name ∉ seen := by
  induction l generalizing seen with
  | nil => simp [dedupeByName]
  | cons m ms ih =>
    unfold dedupeByName
    by_cases h : m.name ∈ seen
    · simp only [h, if_pos]
      exact ⟨(ih seen).1, (ih seen).2⟩
    · simp only [h, if_neg, not_false_iff, List.map_cons, List.nodup_cons]
      refine ⟨⟨?_, (ih (m.name :: seen)).1⟩, ?_⟩
      · intro hmem
        rcases List.mem_map.mp hmem with ⟨m', hm', hname⟩
        have := (ih (m.name :: seen)).2 m' hm'
        exact this (hname ▸ List.mem_cons_self _ _)
      · intro m' hm'
        rcases List.mem_cons.mp hm' with h1 | h1
        · subst h1; exact h
        · have := (ih (m.name :: seen)).2 m' h1
          intro hs
          exact this (List.mem_cons_of_mem _ hs)

/-- C8: for every catalog page body, the processed result lists carry no two
entries with the same identifier, are sublists of the scanned candidates
(first-seen order preserved), and never exceed their caps — 50 for the
keyword search, 30 for the popular listing. -/
theorem search_results_deduped_and_capped (q body : String) :
    ((search_online_process q body).map (fun m => m.name)).Nodup ∧
    (search_online_process q body).length ≤ 50 ∧
    List.Sublist (search_online_process q body) (searchCandidates q body) ∧
    ((get_popular_process body).map (fun m => m.name)).Nodup ∧
    (get_popular_process body).length ≤ 30 ∧
    List.Sublist (get_popular_process body) (popularCandidates body) := by
  unfold search_online_process get_popular_process
  refine ⟨?_, ?_, ?_, ?_, ?_, ?_⟩
  · exact List.Nodup.sublist
      ((List.take_sublist _ _).map _)
      (dedupeByName_names_nodup (searchCandidates q body) []).1
  · have := List.length_take 50 (dedupeByName (searchCandidates q body) [])
    omega
  · exact (List.take_sublist _ _).trans (dedupeByName_sublist _ _)
  · exact List.Nodup.sublist
      ((List.take_sublist _ _).map _)
      (dedupeByName_names_nodup (popularCandidates body) []).1
  · have := List.length_take 30 (dedupeByName (popularCandidates body) [])
    omega
  · exact (List.take_sublist _ _).trans (dedupeByName_sublist _ _)

/-- C7: a blank line or an unparsable line inserted anywhere in the input
is transparent to the streaming decoder: the sequence of callback
invocations and the final accumulated content are the same as without it. -/
theorem skipped_lines_transparent (ls1 ls2 : List String) (m : String) (acc : String)
    (h : isBlank m = true ∨ parseChatResponse m = none) :
    (chatStream (ls1 ++ m :: ls2) acc).1 = (chatStream (ls1 ++ ls2) acc).1 ∧
    (chatStream (ls1 ++ m :: ls2) acc).2.1 = (chatStream (ls1 ++ ls2) acc).2.1 := by
  induction ls1 generalizing acc with
  | nil =>
    simp only [List.nil_append]
    by_cases hb : isBlank m
    · simp [chatStream, hb]
    · rcases h with h | h
      · exact absurd h hb
      · simp [chatStream, hb, h]
  | cons l t ih =>
    simp only [List.cons_append]
    by_cases hb : isBlank l
    · simpa [chatStream, hb] using ih acc
    · cases hp : parseChatResponse l with
      | none => simpa [chatStream, hb, hp] using ih acc
      | some resp =>
        by_cases hd : resp.done
        · simp [chatStream, hb, hp, hd]
        · have := ih (acc ++ resp.message.content)
          simp only [chatStream, hb, hp, hd, if_false, Bool.false_eq_true,
            if_neg, ite_false] at *
          exact ⟨by simp [hb, hp, hd, this.1], by simp [hb, hp, hd, this.2]⟩

/-- C7 witness: a blank line between the two complete frames changes
nothing. -/
theorem skipped_lines_transparent_witness :
    (chatStream ([fullFrame1] ++ "" :: [fullFrame2]) "").1 =
      (chatStream ([fullFrame1] ++ [fullFrame2]) "").1 ∧
    (chatStream ([fullFrame1] ++ "" :: [fullFrame2]) "").2.1 =
      (chatStream ([fullFrame1] ++ [fullFrame2]) "").2.1 :=
  skipped_lines_transparent [fullFrame1] [fullFrame2] "" "" (Or.inl (by decide))

/-- C1 counterexample: submitting `"hi"` with a selected model appends
exactly one turn — the `user` turn — not two; no empty `assistant`
placeholder follows it. -/
theorem submit_appends_single_turn_cx :
    (handle_chat_input
        { AppState.new with input_mode := true, input_text := "hi", selected_model := some "m" }
        KeyCode.enter).1.messages = [⟨"user", "hi"⟩] ∧
    (handle_chat_input
        { AppState.new with input_mode := true, input_text := "hi", selected_model := some "m" }
        KeyCode.enter).1.messages.length ≠ 2 := by
  decide

/-- C1 amended: when the user submits with a non-empty input buffer and a
selected model, exactly one `user` turn carrying the submitted text is
appended, the input buffer is cleared, the in-flight flag is set, insert
mode is left, and a single (non-streaming) chat job is dispatched carrying
the model and the full message history; on success its completion appends
the assistant message and clears the flag. -/
theorem submit_behavior (s : AppState) (m : String)
    (h1 : s.input_mode = true) (h2 : s.input_text ≠ "") (h3 : s.selected_model = some m) :
    (handle_chat_input s KeyCode.enter).1.messages =
      s.messages ++ [⟨"user", s.input_text⟩] ∧
    (handle_chat_input s KeyCode.enter).1.input_text = "" ∧
    (handle_chat_input s KeyCode.enter).1.is_loading = true ∧
    (handle_chat_input s KeyCode.enter).1.input_mode = false ∧
    (handle_chat_input s KeyCode.enter).2 =
      [Job.chat m (s.messages ++ [⟨"user", s.input_text⟩])] ∧
    (∀ resp s2, (chatJobComplete (Except.ok resp) s2).messages =
        s2.messages ++ [resp.message] ∧
      (chatJobComplete (Except.ok resp) s2).is_loading = false) := by
  simp [handle_chat_input, h1, h2, h3, chatJobComplete]

/-- C1 witness: the amended submit behavior at a concrete state. -/
theorem submit_behavior_witness :
    (handle_chat_input
        { AppState.new with input_mode := true, input_text := "yo", selected_model := some "mm" }
        KeyCode.enter).1.is_loading = true :=
  (submit_behavior
    { AppState.new with input_mode := true, input_text := "yo", selected_model := some "mm" }
    "mm" rfl (by decide) rfl).2.2.1

/-- C3 counterexample: from a state with the in-flight flag set (as it is
right after a submit), the key sequence `i`, `h`, `i`, `Enter` appends a
second user turn and dispatches a second chat job while `is_loading` is
still true — the handler never consults the flag. -/
theorem inflight_resubmission_cx :
    (let s0 : AppState :=
      { AppState.new with
          is_loading := true
          selected_model := some "m"
          messages := [⟨"user", "a"⟩] }
     let s1 := (handle_chat_input s0 (KeyCode.char 'i')).1
     let s2 := (handle_chat_input s1 (KeyCode.char 'h')).1
     let s3 := (handle_chat_input s2 (KeyCode.char 'i')).1
     s3.is_loading = true ∧
     (handle_chat_input s3 KeyCode.enter).1.messages =
       [⟨"user", "a"⟩, ⟨"user", "hi"⟩] ∧
     (handle_chat_input s3 KeyCode.enter).2 =
       [Job.chat "m" [⟨"user", "a"⟩, ⟨"user", "hi"⟩]]) := by
  decide

/-- C3 amended: what actually gates resubmission is insert mode, which a
submit leaves: in normal mode no key dispatches a job from the conversation
view and no key appends a message, so the plain further submission attempt
(Enter right after a submit) is ignored; the handler does not consult
`is_loading`, and after re-entering insert mode a second chat job can be
dispatched while one is in flight. -/
theorem normal_mode_ignores_submission (s : AppState) (k : KeyCode)
    (h : s.input_mode = false) :
    (handle_chat_input s k).2 = [] ∧
    (handle_chat_input s k).1.messages.length ≤ s.messages.length := by
  cases k with
  | char c =>
    simp only [handle_chat_input, h, Bool.false_eq_true, if_false]
    by_cases hi : c = 'i' ∨ c = 'a'
    · simp [hi]
      split <;> simp
    · simp only [hi, if_neg, not_false_iff]
      by_cases hj : c = 'j'
      · simp [hj]
        cases s.chat_scroll_state <;> simp
        split <;> simp
      · by_cases hk2 : c = 'k'
        · simp [hi, hj, hk2]
          cases s.chat_scroll_state <;> simp
        · by_cases hG : c = 'G'
          · simp [hi, hj, hk2, hG]
            split <;> simp
          · by_cases hg : c = 'g'
            · simp [hi, hj, hk2, hG, hg]
            · by_cases hd : c = 'd'
              · simp [hi, hj, hk2, hG, hg, hd]
                cases hc : s.chat_scroll_state with
                | none => simp
                | some sel =>
                  simp only []
                  split
                  · rename_i hlt
                    simp [List.length_eraseIdx, hlt]
                  · simp
              · simp [hi, hj, hk2, hG, hg, hd]
  | enter =>
    simp [handle_chat_input, h]
    split <;> simp
  | backspace => simp [handle_chat_input, h]
  | esc => simp [handle_chat_input, h]
  | down =>
    simp [handle_chat_input, h]
    cases s.chat_scroll_state <;> simp
    split <;> simp
  | up =>
    simp [handle_chat_input, h]
    cases s.chat_scroll_state <;> simp
  | endKey =>
    simp [handle_chat_input, h]
    split <;> simp

/-- C3 witness: in normal mode, Enter dispatches nothing and appends
nothing. -/
theorem normal_mode_ignores_submission_witness :
    (handle_chat_input AppState.new KeyCode.enter).2 = [] ∧
    (handle_chat_input AppState.new KeyCode.enter).1.messages.length ≤
      AppState.new.messages.length :=
  normal_mode_ignores_submission AppState.new KeyCode.enter rfl

/-- A list is nil or has positive length. -/
theorem nil_or_len_pos {α : Type} (l : List α) : l = [] ∨ 0 < l.length := by
  cases l <;> simp

/-- C5 counterexample: with two messages and the cursor on the second,
deleting the selected message (`d`) shrinks the list to length 1 but leaves
the cursor at 1 — at the list's length, out of range for a nonempty list. -/
theorem delete_leaves_cursor_out_of_range_cx :
    (let s : AppState :=
      { AppState.new with
          messages := [⟨"user", "a"⟩, ⟨"assistant", "b"⟩]
          chat_scroll_state := some 1 }
     let t := (handle_chat_input s (KeyCode.char 'd')).1
     t.messages.length = 1 ∧ t.chat_scroll_state = some 1 ∧
     ¬ cursorInBounds t.chat_scroll_state t.messages.length) := by
  decide

/-- C5 amended: the four navigation key groups (down/`j`, up/`k`,
last/`G`/End, first/`g`) never change the lists, keep every cursor in bounds
whenever it was in bounds, are no-ops on an empty list for down and last,
and never wrap (down at the last index and up at index 0 stay put).  The
bound is an invariant of navigation only: message deletion (`d`) and
wholesale list replacement by background jobs can leave a cursor at or
beyond the list's length. -/
theorem navigation_keys_clamp_cursor (s : AppState) (hm : s.input_mode = false) :
    (∀ k, k ∈ navKeysList →
      (handle_chat_input s k).1.messages = s.messages ∧
      (handle_models_input s k).1.models = s.models ∧
      (handle_search_input s k).1.search_results = s.search_results ∧
      (cursorInBounds s.chat_scroll_state s.messages.length →
        cursorInBounds (handle_chat_input s k).1.chat_scroll_state s.messages.length) ∧
      (cursorInBounds s.model_list_state s.models.length →
        cursorInBounds (handle_models_input s k).1.model_list_state s.models.length) ∧
      (cursorInBounds s.search_list_state s.search_results.length →
        cursorInBounds (handle_search_input s k).1.search_list_state s.search_results.length)) ∧
    (∀ k, k ∈ [KeyCode.down, KeyCode.char 'j', KeyCode.endKey, KeyCode.char 'G'] →
      (s.messages = [] →
        (handle_chat_input s k).1.chat_scroll_state = s.chat_scroll_state) ∧
      (s.models = [] →
        (handle_models_input s k).1.model_list_state = s.model_list_state) ∧
      (s.search_results = [] →
        (handle_search_input s k).1.search_list_state = s.search_list_state)) ∧
    (∀ k, k ∈ [KeyCode.down, KeyCode.char 'j'] →
      (s.chat_scroll_state = some (s.messages.length - 1) → s.messages ≠ [] →
        (handle_chat_input s k).1.chat_scroll_state = some (s.messages.length - 1)) ∧
      (s.model_list_state = some (s.models.length - 1) → s.models ≠ [] →
        (handle_models_input s k).1.model_list_state = some (s.models.length - 1)) ∧
      (s.search_list_state = some (s.search_results.length - 1) → s.search_results ≠ [] →
        (handle_search_input s k).1.search_list_state = some (s.search_results.length - 1))) ∧
    (∀ k, k ∈ [KeyCode.up, KeyCode.char 'k'] →
      (s.chat_scroll_state = some 0 →
        (handle_chat_input s k).1.chat_scroll_state = some 0) ∧
      (s.model_list_state = some 0 →
        (handle_models_input s k).1.model_list_state = some 0) ∧
      (s.search_list_state = some 0 →
        (handle_search_input s k).1.search_list_state = some 0)) := by
  refine ⟨?_, ?_, ?_, ?_⟩
  · intro k hk
    fin_cases hk <;>
    · refine ⟨?_, ?_, ?_, fun h => ?_, fun h2 => ?_, fun h3 => ?_⟩ <;>
      · simp [handle_chat_input, handle_models_input, handle_search_input, hm]
        repeat' split
        all_goals simp_all [cursorInBounds, List.isEmpty_iff]
        all_goals first
          | rfl
          | assumption
          | (exact List.length_pos_iff_ne_nil.mpr (by assumption))
          | (exact nil_or_len_pos _)
          | (rcases h with hd | hd <;> first | (exact Or.inl hd) | (exact Or.inr (by omega)))
          | (rcases h2 with hd | hd <;> first | (exact Or.inl hd) | (exact Or.inr (by omega)))
          | (rcases h3 with hd | hd <;> first | (exact Or.inl hd) | (exact Or.inr (by omega)))
          | omega
  · intro k hk
    fin_cases hk <;>
    · refine ⟨fun hE => ?_, fun hE => ?_, fun hE => ?_⟩ <;>
      · simp [handle_chat_input, handle_models_input, handle_search_input, hm, hE]
        all_goals repeat' split
        all_goals simp_all
  · intro k hk
    fin_cases hk <;>
    · refine ⟨fun hc hne => ?_, fun hc hne => ?_, fun hc hne => ?_⟩ <;>
      · simp [handle_chat_input, handle_models_input, handle_search_input, hm, hc,
          List.isEmpty_iff, hne]
  · intro k hk
    fin_cases hk <;>
    · refine ⟨fun hc => ?_, fun hc => ?_, fun hc => ?_⟩ <;>
      · simp [handle_chat_input, handle_models_input, handle_search_input, hm, hc]

/-- C5 witness: down-navigation from a concrete in-bounds state stays in
bounds. -/
theorem navigation_keys_clamp_cursor_witness :
    cursorInBounds
      (handle_chat_input
        { AppState.new with messages := [⟨"user", "a"⟩, ⟨"assistant", "b"⟩] }
        KeyCode.down).1.chat_scroll_state
      ({ AppState.new with messages := [⟨"user", "a"⟩, ⟨"assistant", "b"⟩] } : AppState).messages.length :=
  (((navigation_keys_clamp_cursor
      { AppState.new with messages := [⟨"user", "a"⟩, ⟨"assistant", "b"⟩] }
      rfl).1 KeyCode.down (by decide)).2.2.2.1) (by decide)
